import Mathlib

/-!
Shallow embedding of the orchestration / normalization / retry core of the
`code-interpretor-openai` backend (files `backend/retry_utils.py`,
`backend/conversation_client.py`, `backend/file_controller.py`).

Modelling conventions:
* Python strings are `String`; `None` and "attribute absent" are conflated
  into `Option.none` for attributes the code only ever reads through
  `getattr(x, f, None)` (the code treats the two identically there).
  Attributes the code reads directly (where an absent attribute raises
  `AttributeError`) or probes with `hasattr` are modelled with an extra
  `Option` layer: `none` = attribute absent, `some v` = attribute present
  with value `v`.
* Python truthiness of an optional string (`if x:`) is `strTruthy`:
  `None`/absent and the empty string are falsy.
* `time.sleep` is modelled by recording the requested durations (as `ℚ`)
  in a list; wall-clock time in the polling loop is an abstract function
  `elapsedAt : Nat → ℚ` giving the elapsed time observed at the n-th
  check of the deadline.
* Exceptions are modelled with `Except`.
-/

/-- Python truthiness of an optional string: `None` and `""` are falsy. -/
def strTruthy : Option String → Bool
  | none => false
  | some s => s != ""

/-- Python `a or b` restricted to optional strings (as used by the code:
`getattr(x, f, None) or getattr(x, g, None)`). -/
def pyOr (a b : Option String) : Option String :=
  if strTruthy a then a else b

/-- `pat` is a leading segment of `cs` (character-list level). -/
def startsWithChars : List Char → List Char → Bool
  | [], _ => true
  | _ :: _, [] => false
  | p :: ps, c :: cs => p == c && startsWithChars ps cs

/-- `pat` occurs contiguously somewhere in `cs`: Python `pat in s`. -/
def containsChars (pat : List Char) : List Char → Bool
  | [] => startsWithChars pat []
  | c :: cs => startsWithChars pat (c :: cs) || containsChars pat cs

/-- Python `sub in s` on strings. -/
def strIn (sub s : String) : Bool := containsChars sub.data s.data

/-- Python `s.lower()` (ASCII-adequate for the markers the code matches). -/
def lowerStr (s : String) : String := ⟨s.data.map Char.toLower⟩

/-- Python `s.endswith(suffix)` for a single suffix (case-sensitive). -/
def endsWithStr (s suf : String) : Bool :=
  startsWithChars suf.data.reverse s.data.reverse

/-! ## `backend/retry_utils.py` — the Backoff Executor -/

/-- The rate-limit classifier of `retry_with_exponential_backoff`:
`'rate_limit_exceeded' in error_str.lower() or '429' in error_str`. -/
def isRateLimit (e : String) : Bool :=
  strIn "rate_limit_exceeded" (lowerStr e) || strIn "429" e

/-- Digit run to a number, as Python `int` on the captured digits. -/
def digitsToNat (ds : List Char) : Nat :=
  ds.foldl (fun acc c => acc * 10 + (c.toNat - 48)) 0

/-- Match the regex `try again in (\d+)ms` anchored at the head of `cs`:
the literal text, then a maximal nonempty digit run, then `ms`. -/
def matchHintAt (cs : List Char) : Option Nat :=
  if startsWithChars "try again in ".data cs then
    let rest := cs.drop 13
    let ds := rest.takeWhile Char.isDigit
    let rest2 := rest.dropWhile Char.isDigit
    if ds != [] && startsWithChars "ms".data rest2 then some (digitsToNat ds)
    else none
  else none

/-- Leftmost match of `try again in (\d+)ms`, as `re.search`. -/
def searchHint : List Char → Option Nat
  | [] => none
  | c :: cs =>
    match matchHintAt (c :: cs) with
    | some n => some n
    | none => searchHint cs

/-- The wait-hint extraction of `retry_with_exponential_backoff`: the guard
`'try again in' in error_str.lower()` followed by
`re.search(r'try again in (\d+)ms', error_str)` on the raw (un-lowered)
error text; the result is the hinted number of milliseconds. -/
def extract_hint (s : String) : Option Nat :=
  if strIn "try again in" (lowerStr s) then searchHint s.data else none

/-- Sleep duration for one retry: the computed exponential `delay`,
raised to `wait_ms / 1000.0` when the error text embeds a hint
(`wait_time = max(wait_ms / 1000.0, delay)`). -/
def computeWait (e : String) (delay : ℚ) : ℚ :=
  match extract_hint e with
  | some ms => max ((ms : ℚ) / 1000) delay
  | none => delay

/-- The attempt loop of `retry_with_exponential_backoff`.  `op n` is the
outcome of the (n+1)-st call of the wrapped function; `remaining` is
`max_retries - attempt`, so the guard `attempt < max_retries` of the source
is `remaining > 0`.  The result pairs the final outcome (`.error e` models
`raise`) with the list of `time.sleep` durations in order.  The source's
trailing `raise last_exception` is unreachable (every `except` path either
`continue`s or re-raises), so the re-raised error is always the current
attempt's one. -/
def retryAux (op : Nat → Except String α) (base : ℚ) :
    Nat → Nat → ℚ → List ℚ → Except String α × List ℚ
  | remaining, attempt, delay, sleeps =>
    match op attempt with
    | .ok a => (.ok a, sleeps)
    | .error e =>
      if isRateLimit e then
        match remaining with
        | 0 => (.error e, sleeps)
        | r + 1 =>
          retryAux op base r (attempt + 1) (delay * base)
            (sleeps ++ [computeWait e delay])
      else (.error e, sleeps)

/-- `retry_with_exponential_backoff(max_retries, initial_delay,
exponential_base)` applied to `op` (the `jitter` parameter of the source is
accepted and never used, so it is omitted). -/
def retryExec (op : Nat → Except String α) (max_retries : Nat)
    (initial_delay base : ℚ) : Except String α × List ℚ :=
  retryAux op base max_retries 0 initial_delay []

/-! ## `ResponsesClient.wait_on_response` — the polling loop -/

/-- The loop guard: `response.status in ("in_progress", "queued", "requires_action")`. -/
def nonTerminalStatus (s : String) : Bool :=
  s == "in_progress" || s == "queued" || s == "requires_action"

/-- Outcome of the polling loop: a terminal response status, the raised
`TimeoutError`, or an exception propagated out of a poll's
`responses.retrieve` call. -/
inductive WaitOutcome where
  | ok (status : String)
  | timeout
  | err (e : String)
deriving DecidableEq

/-- The `while` loop of `wait_on_response`.  `retrieve n` is the outcome of
the (n+1)-st `responses.retrieve` call (it may raise); `elapsedAt n` is the
wall time `time.time() - start` observed at the (n+1)-st check of the
deadline (the code sleeps `poll_interval` between checks, so a run with
`poll_interval = p` satisfies `elapsedAt n + p ≤ elapsedAt (n+1)`).  `fuel`
bounds the number of modelled iterations; `none` means the bound was hit,
which the theorems show cannot happen with enough fuel. -/
def waitAux (retrieve : Nat → Except String String) (elapsedAt : Nat → ℚ)
    (timeout : ℚ) : Nat → Nat → String → Option WaitOutcome
  | 0, _, _ => none
  | fuel + 1, n, status =>
    if nonTerminalStatus status then
      if timeout < elapsedAt n then some .timeout
      else
        match retrieve n with
        | .error e => some (.err e)
        | .ok s => waitAux retrieve elapsedAt timeout fuel (n + 1) s
    else some (.ok status)

/-- `wait_on_response(response, poll_interval, timeout)` starting from the
initial status `status₀` of the passed response. -/
def wait_on_response (retrieve : Nat → Except String String)
    (elapsedAt : Nat → ℚ) (timeout : ℚ) (fuel : Nat) (status₀ : String) :
    Option WaitOutcome :=
  waitAux retrieve elapsedAt timeout fuel 0 status₀

/-! ## `parse_response_output` — the Output Normalizer -/

/-- A Python value sitting in a `text`-named attribute: either a plain
string or an object exposing (or not) a `value` attribute. -/
inductive PyTextVal where
  | str (s : String)
  | obj (value : Option String)
deriving DecidableEq

/-- Truthiness of an optional `text` attribute (`if txt_obj:`): an object is
always truthy, a string is truthy iff nonempty. -/
def textTruthy : Option PyTextVal → Bool
  | none => false
  | some (.str s) => s != ""
  | some (.obj _) => true

/-- `getattr(txt_obj, "value", None)`: only the object form has a `value`
attribute; a plain string yields the default `None`. -/
def valueAttr : Option PyTextVal → Option String
  | some (.obj v) => v
  | _ => none

/-- An inline citation-style object from an item's `annotations` list. -/
structure InlineAnn where
  type_ : String
  file_id : Option String
  id : Option String
  text : Option String
  filename : Option String
  path : Option String
  filepath : Option String
  mime_type : Option String
  content_type : Option String
deriving DecidableEq

/-- A nested file/image payload object (`item.file_path`, `item.image_file`,
`item.file`, `item.image`, or an entry of `response.output_files`).
`file_id` keeps the attribute-present/absent distinction because the code
either reads it directly (raising `AttributeError` when absent) or probes
it with `hasattr`. -/
structure FileObj where
  file_id : Option (Option String)
  id : Option String
  filename : Option String
  path : Option String
  filepath : Option String
  mime_type : Option String
  content_type : Option String
deriving DecidableEq

/-- One element of a block's `content` list. The four payload fields keep
the present/absent distinction because the code probes them with
`hasattr`. -/
structure ContentItem where
  type_ : String
  text : Option PyTextVal
  output_text : Option String
  value : Option String
  file_path : Option FileObj
  image_file : Option FileObj
  file : Option FileObj
  image : Option FileObj
  annotations : List InlineAnn
deriving DecidableEq

/-- One element of `response.output`.  `container_id` keeps the
present/absent distinction because the code reads it with
`getattr(block, "container_id", current_container_id)`, whose behaviour
differs between an absent attribute and a present `None`. -/
structure OutBlock where
  container_id : Option (Option String)
  content : List ContentItem
deriving DecidableEq

/-- The raw Responses-API result consumed by `parse_response_output`. -/
structure RawResponse where
  id : Option String
  output_text : Option String
  output : Option (List OutBlock)
  output_files : Option (List FileObj)
deriving DecidableEq

/-- One normalized annotation dictionary as built by
`parse_response_output`.  `text = none` models the branches that do not put
a `"text"` key in the dictionary at all. -/
structure Annot where
  type_ : String
  file_id : Option String
  text : Option PyTextVal
  filename : Option String
  path : Option String
  mime_type : Option String
  response_id : Option String
  container_id : Option String
deriving DecidableEq

/-- The modelled Python exceptions of the normalizer. -/
inductive PyErr where
  | attributeError
deriving DecidableEq

/-- Direct attribute access `x.f`: raises `AttributeError` when the
attribute is absent. -/
def pyattr : Option (Option String) → Except PyErr (Option String)
  | none => .error .attributeError
  | some v => .ok v

/-- The image-extension tuple of the inline-citation branch:
`(".png", ".jpg", ".jpeg", ".gif", ".svg", ".webp")`. -/
def imageExts : List String :=
  [".png", ".jpg", ".jpeg", ".gif", ".svg", ".webp"]

/-- `str(fid).endswith(imageExts)` — case-sensitive, as in the source. -/
def endsWithAny (s : String) (sufs : List String) : Bool :=
  sufs.any (fun suf => endsWithStr s suf)

/-- The inline-citation branch: for `ann` of type
`container_file_citation` / `file_citation` / `file_path`, take
`fid = getattr(ann, "file_id", None) or getattr(ann, "id", None)` and emit
one annotation when `fid` is truthy, classifying it as an image by
(case-sensitive) filename extension. -/
def annFromInline (rid ccid : Option String) (ann : InlineAnn) : List Annot :=
  if ann.type_ == "container_file_citation" || ann.type_ == "file_citation"
      || ann.type_ == "file_path" then
    let fid := pyOr ann.file_id ann.id
    if strTruthy fid then
      [{ type_ := if endsWithAny (fid.getD "") imageExts then "image_file"
                  else "file_path",
         file_id := fid,
         text := some (.str (ann.text.getD "")),
         filename := ann.filename,
         path := pyOr ann.path ann.filepath,
         mime_type := pyOr ann.mime_type ann.content_type,
         response_id := rid, container_id := ccid }]
    else []
  else []

/-- The text-extraction branch for items of type
`text` / `output_text` / `summary_text` / `refusal`. -/
def itemTexts (item : ContentItem) : List String :=
  let t := item.type_
  if t == "text" || t == "output_text" || t == "summary_text"
      || t == "refusal" then
    let val0 := if textTruthy item.text then valueAttr item.text else none
    let val := if strTruthy val0 then val0
               else pyOr item.output_text item.value
    if strTruthy val then [val.getD ""] else []
  else []

/-- The `item_type == "file_path" and hasattr(item, "file_path")` branch:
reads `fp.file_id` directly, so an absent `file_id` raises. -/
def filePathAnns (rid ccid : Option String) (item : ContentItem) :
    Except PyErr (List Annot) :=
  if item.type_ == "file_path" then
    match item.file_path with
    | some fp =>
      match pyattr fp.file_id with
      | .error e => .error e
      | .ok fid =>
        .ok [{ type_ := "file_path", file_id := fid,
               text := some (item.text.getD (.str "")),
               filename := pyOr fp.filename fp.path,
               path := pyOr fp.path fp.filepath,
               mime_type := pyOr fp.mime_type fp.content_type,
               response_id := rid, container_id := ccid }]
    | none => .ok []
  else .ok []

/-- The `item_type == "image_file" and hasattr(item, "image_file")`
branch: reads `img.file_id` directly, so an absent `file_id` raises; the
emitted dictionary has no `"text"` key. -/
def imageFileAnns (rid ccid : Option String) (item : ContentItem) :
    Except PyErr (List Annot) :=
  if item.type_ == "image_file" then
    match item.image_file with
    | some img =>
      match pyattr img.file_id with
      | .error e => .error e
      | .ok fid =>
        .ok [{ type_ := "image_file", file_id := fid, text := none,
               filename := pyOr img.filename img.path,
               path := pyOr img.path img.filepath,
               mime_type := pyOr img.mime_type img.content_type,
               response_id := rid, container_id := ccid }]
    | none => .ok []
  else .ok []

/-- The `item_type in ("output_file", "file") and hasattr(item, "file")`
branch: `fobj.file_id if hasattr(fobj, "file_id") else getattr(fobj, "id",
None)`, so a missing identifier flows through as `None`. -/
def outputFileItemAnns (rid ccid : Option String) (item : ContentItem) :
    List Annot :=
  if item.type_ == "output_file" || item.type_ == "file" then
    match item.file with
    | some fobj =>
      let fid : Option String :=
        match fobj.file_id with
        | some v => v
        | none => fobj.id
      [{ type_ := "file_path", file_id := fid,
         text := some (item.text.getD (.str "")),
         filename := pyOr fobj.filename fobj.path,
         path := pyOr fobj.path fobj.filepath,
         mime_type := pyOr fobj.mime_type fobj.content_type,
         response_id := rid, container_id := ccid }]
    | none => []
  else []

/-- The `item_type in ("output_image", "image") and hasattr(item, "image")`
branch; no `"text"` key in the emitted dictionary. -/
def outputImageItemAnns (rid ccid : Option String) (item : ContentItem) :
    List Annot :=
  if item.type_ == "output_image" || item.type_ == "image" then
    match item.image with
    | some img =>
      let fid : Option String :=
        match img.file_id with
        | some v => v
        | none => img.id
      [{ type_ := "image_file", file_id := fid, text := none,
         filename := pyOr img.filename img.path,
         path := pyOr img.path img.filepath,
         mime_type := pyOr img.mime_type img.content_type,
         response_id := rid, container_id := ccid }]
    | none => []
  else []

/-- The inline-citation loop over `getattr(item, "annotations", []) or []`. -/
def inlineAnns (rid ccid : Option String) (item : ContentItem) : List Annot :=
  (item.annotations.map (annFromInline rid ccid)).flatten

/-- One iteration of the inner `for item in content_list` loop: the text
branch, then the four file/image branches (their type guards are mutually
exclusive), then the inline citations.  The first raising branch aborts the
whole parse, as an uncaught exception does in the source. -/
def processItem (rid ccid : Option String) (item : ContentItem) :
    Except PyErr (List String × List Annot) :=
  match filePathAnns rid ccid item, imageFileAnns rid ccid item with
  | .error e, _ => .error e
  | _, .error e => .error e
  | .ok a1, .ok a2 =>
    .ok (itemTexts item,
         a1 ++ a2 ++ outputFileItemAnns rid ccid item
            ++ outputImageItemAnns rid ccid item ++ inlineAnns rid ccid item)

/-- The inner loop with its accumulators. -/
def processItems (rid ccid : Option String) :
    List String → List Annot → List ContentItem →
    Except PyErr (List String × List Annot)
  | ts, anns, [] => .ok (ts, anns)
  | ts, anns, item :: rest =>
    match processItem rid ccid item with
    | .error e => .error e
    | .ok (ts2, anns2) => processItems rid ccid (ts ++ ts2) (anns ++ anns2) rest

/-- One iteration of the outer `for block in outputs` loop:
`current_container_id = getattr(block, "container_id", current_container_id)`
followed by the inner item loop with the updated id. -/
def processBlock (rid ccid : Option String) (block : OutBlock) :
    Except PyErr (Option String × List String × List Annot) :=
  let ccid2 := block.container_id.getD ccid
  match processItems rid ccid2 [] [] block.content with
  | .error e => .error e
  | .ok (ts, anns) => .ok (ccid2, ts, anns)

/-- The outer loop with its accumulators (`text_chunks`, `annotations`,
`current_container_id`). -/
def processBlocks (rid : Option String) :
    Option String → List String → List Annot → List OutBlock →
    Except PyErr (Option String × List String × List Annot)
  | ccid, ts, anns, [] => .ok (ccid, ts, anns)
  | ccid, ts, anns, b :: bs =>
    match processBlock rid ccid b with
    | .error e => .error e
    | .ok (c, ts2, anns2) => processBlocks rid c (ts ++ ts2) (anns ++ anns2) bs

/-- The `response.output_files` loop:
`fid = getattr(f, "id", None) or getattr(f, "file_id", None)`, emit only
when truthy. -/
def outputFileAnn (rid ccid : Option String) (f : FileObj) : List Annot :=
  let fid := pyOr f.id (f.file_id.getD none)
  if strTruthy fid then
    [{ type_ := "file_path", file_id := fid,
       text := some (.str (f.filename.getD "")),
       filename := pyOr f.filename f.path,
       path := pyOr f.path f.filepath,
       mime_type := pyOr f.mime_type f.content_type,
       response_id := rid, container_id := ccid }]
  else []

/-- `parse_response_output(response)`: the convenience `output_text` first,
then the block loop, then the top-level `output_files` (emitted with the
final `current_container_id`). -/
def parse_response_output (r : RawResponse) :
    Except PyErr (String × List Annot) :=
  let chunks0 : List String :=
    if strTruthy r.output_text then [r.output_text.getD ""] else []
  let blockRes : Except PyErr (Option String × List String × List Annot) :=
    match r.output with
    | some blocks =>
      if blocks.isEmpty then .ok (none, [], [])
      else processBlocks r.id none [] [] blocks
    | none => .ok (none, [], [])
  match blockRes with
  | .error e => .error e
  | .ok (ccid, ts, anns) =>
    let anns2 :=
      match r.output_files with
      | some fs => anns ++ (fs.map (outputFileAnn r.id ccid)).flatten
      | none => anns
    .ok (String.join (chunks0 ++ ts), anns2)

/-! ## `download_container_file` — the File Relay -/

/-- Metadata object returned by the containers-files retrieve call, as read
by `download_container_file`. -/
structure FileInfo where
  path : Option String
  filename : Option String
  name : Option String
deriving DecidableEq

/-- Content object returned by the containers-files content call, as read
by `download_container_file` (only its `filename` attribute is consulted
for naming). -/
structure FileData where
  filename : Option String
deriving DecidableEq

/-- `os.path.basename(p)`: the component after the last `/`. -/
def os_basename (p : String) : String :=
  ⟨p.data.foldl (fun acc c => if c == '/' then [] else acc ++ [c]) []⟩

/-- The filename-resolution chain of `download_container_file`:
basename of the metadata path, else metadata `filename` / `name`, else the
content object's `filename`, else the raw `file_id`. -/
def resolve_download_filename (file_id : String) (info : FileInfo)
    (data : FileData) : String :=
  let fn0 : Option String :=
    if strTruthy info.path then some (os_basename (info.path.getD ""))
    else none
  let fn1 : Option String :=
    if strTruthy fn0 then fn0 else pyOr info.filename info.name
  let fn2 : Option String :=
    if strTruthy fn1 then fn1 else data.filename
  if strTruthy fn2 then fn2.getD "" else file_id

/-- Extension of a filename as `posixpath.splitext` finds it: the segment
from the last dot of the basename that has some non-dot character before
it; `[]` when there is none. -/
def splitextExtChars (base : List Char) : List Char :=
  match ((List.range base.length).filter
      (fun i => base.getD i ' ' == '.'
        && (base.take i).any (fun c => c != '.'))).getLast? with
  | some i => base.drop i
  | none => []

/-- Modelled from the Python standard library: `mimetypes.guess_type` on
the extensions relevant here (the stdlib table restricted; unknown
extensions give `None`).  The lookup is on the lowercased extension of the
basename, as in the stdlib. -/
def mimetypes_guess_type (filename : String) : Option String :=
  let ext : String :=
    ⟨(splitextExtChars (os_basename filename).data).map Char.toLower⟩
  List.lookup ext
    [(".png", "image/png"), (".jpg", "image/jpeg"), (".jpeg", "image/jpeg"),
     (".gif", "image/gif"), (".svg", "image/svg+xml"),
     (".webp", "image/webp"), (".txt", "text/plain"), (".csv", "text/csv"),
     (".json", "application/json"), (".pdf", "application/pdf"),
     (".html", "text/html")]

/-- `content_type, _ = mimetypes.guess_type(filename)` followed by
`content_type = content_type or "application/octet-stream"`. -/
def guessed_content_type (filename : String) : String :=
  (mimetypes_guess_type filename).getD "application/octet-stream"

/-! ## Helper lemmas -/

theorem strTruthy_iff (o : Option String) :
    strTruthy o = true ↔ ∃ s, o = some s ∧ s ≠ "" := by
  cases o with
  | none => simp [strTruthy]
  | some s => simp [strTruthy]

theorem le_computeWait (e : String) (d : ℚ) : d ≤ computeWait e d := by
  unfold computeWait
  cases extract_hint e with
  | none => exact le_refl d
  | some ms => exact le_max_right _ _

theorem computeWait_of_hint (e : String) (d : ℚ) (ms : Nat)
    (h : extract_hint e = some ms) :
    computeWait e d = max ((ms : ℚ) / 1000) d := by
  unfold computeWait
  rw [h]

theorem computeWait_of_no_hint (e : String) (d : ℚ)
    (h : extract_hint e = none) : computeWait e d = d := by
  unfold computeWait
  rw [h]

theorem retryAux_allError {α : Type} (err : Nat → String)
    (hrl : ∀ k, isRateLimit (err k) = true) (base : ℚ) :
    ∀ (r a : Nat) (delay : ℚ) (sleeps : List ℚ),
    retryAux (fun n => (Except.error (err n) : Except String α)) base r a delay
        sleeps
      = (Except.error (err (a + r)),
         sleeps ++ (List.range r).map
           (fun j => computeWait (err (a + j)) (delay * base ^ j))) := by
  intro r
  induction r with
  | zero =>
    intro a delay sleeps
    rw [retryAux]
    simp [hrl a]
  | succ r ih =>
    intro a delay sleeps
    rw [retryAux]
    simp only [hrl a, if_true]
    rw [ih (a + 1) (delay * base) (sleeps ++ [computeWait (err a) delay])]
    refine Prod.ext ?_ ?_
    · show Except.error (err (a + 1 + r)) = Except.error (err (a + (r + 1)))
      have : a + 1 + r = a + (r + 1) := by omega
      rw [this]
    · show sleeps ++ [computeWait (err a) delay]
          ++ (List.range r).map
              (fun j => computeWait (err (a + 1 + j)) (delay * base * base ^ j))
        = sleeps ++ (List.range (r + 1)).map
              (fun j => computeWait (err (a + j)) (delay * base ^ j))
      rw [List.append_assoc, List.range_succ_eq_map, List.map_cons,
        List.map_map]
      congr 1
      rw [List.singleton_append]
      congr 1
      · simp
      · apply List.map_congr_left
        intro j _
        show computeWait (err (a + 1 + j)) (delay * base * base ^ j)
          = computeWait (err (a + (j + 1))) (delay * base ^ (j + 1))
        have h1 : a + 1 + j = a + (j + 1) := by omega
        have h2 : delay * base * base ^ j = delay * base ^ (j + 1) := by
          rw [pow_succ]; ring
        rw [h1, h2]

theorem retryAux_sleeps_extend {α : Type} (op : Nat → Except String α)
    (base : ℚ) :
    ∀ (r a : Nat) (delay : ℚ) (sleeps : List ℚ),
    ∃ t, (retryAux op base r a delay sleeps).2 = sleeps ++ t := by
  intro r
  induction r with
  | zero =>
    intro a delay sleeps
    rw [retryAux]
    cases hop : op a with
    | ok v => exact ⟨[], by simp⟩
    | error e =>
      by_cases hrl : isRateLimit e
      · exact ⟨[], by simp [hrl]⟩
      · exact ⟨[], by simp [hrl]⟩
  | succ r ih =>
    intro a delay sleeps
    rw [retryAux]
    cases hop : op a with
    | ok v => exact ⟨[], by simp⟩
    | error e =>
      by_cases hrl : isRateLimit e
      · simp only [hrl, if_true]
        obtain ⟨t, ht⟩ :=
          ih (a + 1) (delay * base) (sleeps ++ [computeWait e delay])
        exact ⟨[computeWait e delay] ++ t, by rw [ht, List.append_assoc]⟩
      · exact ⟨[], by simp [hrl]⟩

theorem computeWait_range_shift (err : Nat → String) (base delay : ℚ)
    (a n : Nat) :
    (List.range (n + 1)).map
        (fun j => computeWait (err (a + j)) (delay * base ^ j))
      = computeWait (err a) delay
        :: (List.range n).map
            (fun j => computeWait (err (a + 1 + j)) (delay * base * base ^ j))
    := by
  rw [List.range_succ_eq_map, List.map_cons, List.map_map]
  congr 1
  · simp
  · apply List.map_congr_left
    intro j _
    simp only [Function.comp_apply, Nat.succ_eq_add_one]
    have h1 : a + (j + 1) = a + 1 + j := by omega
    have h2 : delay * base ^ (j + 1) = delay * base * base ^ j := by
      rw [pow_succ]; ring
    rw [h1, h2]

theorem retryAux_sleeps_after_rl_failures {α : Type}
    (op : Nat → Except String α) (err : Nat → String) (base : ℚ) :
    ∀ (n r a : Nat) (delay : ℚ) (sleeps : List ℚ), n < r →
    (∀ k, k ≤ n → op (a + k) = Except.error (err (a + k)) ∧
        isRateLimit (err (a + k)) = true) →
    ∃ t, (retryAux op base r a delay sleeps).2
        = sleeps ++ (List.range (n + 1)).map
            (fun j => computeWait (err (a + j)) (delay * base ^ j)) ++ t := by
  intro n
  induction n with
  | zero =>
    intro r a delay sleeps hr hop
    obtain ⟨r', rfl⟩ : ∃ r', r = r' + 1 := ⟨r - 1, by omega⟩
    rw [retryAux]
    obtain ⟨hopa, hrla⟩ := hop 0 (le_refl 0)
    rw [Nat.add_zero] at hopa hrla
    rw [hopa]
    simp only [hrla, if_true]
    obtain ⟨t, ht⟩ := retryAux_sleeps_extend op base r' (a + 1) (delay * base)
      (sleeps ++ [computeWait (err a) delay])
    refine ⟨t, ?_⟩
    rw [ht, computeWait_range_shift]
    simp [List.append_assoc]
  | succ n ih =>
    intro r a delay sleeps hr hop
    obtain ⟨r', rfl⟩ : ∃ r', r = r' + 1 := ⟨r - 1, by omega⟩
    rw [retryAux]
    obtain ⟨hopa, hrla⟩ := hop 0 (Nat.zero_le _)
    rw [Nat.add_zero] at hopa hrla
    rw [hopa]
    simp only [hrla, if_true]
    obtain ⟨t, ht⟩ := ih r' (a + 1) (delay * base)
      (sleeps ++ [computeWait (err a) delay]) (by omega)
      (by
        intro k hk
        have := hop (k + 1) (by omega)
        constructor
        · have h1 : a + 1 + k = a + (k + 1) := by omega
          rw [h1]; exact this.1
        · have h1 : a + 1 + k = a + (k + 1) := by omega
          rw [h1]; exact this.2)
    refine ⟨t, ?_⟩
    rw [ht, computeWait_range_shift err base delay a (n + 1)]
    simp [List.append_assoc]

/-- C10: `retry_with_exponential_backoff` with `max_retries = 0` runs the
operation exactly once, sleeping never: a success on the single attempt is
returned unchanged, and any failure (rate-limit-flavored or not) is
re-raised immediately. -/
theorem retry_zero_max_retries {α : Type} (op : Nat → Except String α)
    (i b : ℚ) : retryExec op 0 i b = (op 0, []) := by
  unfold retryExec
  rw [retryAux]
  cases hop : op 0 with
  | ok v => rfl
  | error e =>
    by_cases hrl : isRateLimit e
    · simp [hrl]
    · simp [hrl]

/-- C5: an operation whose first failure is not classified as a rate-limit
condition (no `rate_limit_exceeded` marker, no `429` in the error text) is
re-raised immediately after the first attempt, with zero sleeps and no
further attempts (the result does not depend on the operation's behaviour
at any later attempt). -/
theorem retry_non_rate_limit_immediate {α : Type} (op : Nat → Except String α)
    (e : String) (h0 : op 0 = Except.error e) (hnr : isRateLimit e = false)
    (mr : Nat) (i b : ℚ) :
    retryExec op mr i b = (Except.error e, []) := by
  unfold retryExec
  rw [retryAux, h0]
  simp [hnr]

/-- C5 witness. -/
theorem retry_non_rate_limit_immediate_witness :
    retryExec (fun _ => (Except.error "boom" : Except String Unit)) 3 1 2
      = (Except.error "boom", []) :=
  retry_non_rate_limit_immediate (fun _ => Except.error "boom") "boom" rfl
    (by decide) 3 1 2

/-- The error sequence of the C4 counterexample: every attempt fails
rate-limited; the first error embeds a `try again in 5000ms` hint. -/
def rlHintErr (n : Nat) : String :=
  if n = 0 then "rate_limit_exceeded, try again in 5000ms"
  else "Error code: 429"

/-- C4 counterexample: with `max_retries = 3` and the defaults
`initial_delay = 1`, `exponential_base = 2`, an operation that always fails
rate-limited but whose first error embeds a `try again in 5000ms` hint
sleeps `[5, 2, 4]` — the sleeps are NOT non-decreasing. -/
theorem retry_sleeps_not_monotone_cex :
    (retryExec (fun n => (Except.error (rlHintErr n) : Except String Unit))
        3 1 2).2 = [5, 2, 4] ∧
    ¬ List.Chain' (· ≤ ·)
      (retryExec (fun n => (Except.error (rlHintErr n) : Except String Unit))
        3 1 2).2 := by
  have hrl : ∀ k, isRateLimit (rlHintErr k) = true := by
    intro k
    unfold rlHintErr
    by_cases h : k = 0
    · simp only [h, if_true]
      decide
    · simp only [h, if_false]
      decide
  have h := retryAux_allError (α := Unit) rlHintErr hrl 2 3 0 1 []
  have c0 : computeWait (rlHintErr 0) (1 * 2 ^ 0) = 5 := by
    rw [computeWait_of_hint _ _ 5000 (by decide)]
    norm_num
  have c1 : computeWait (rlHintErr 1) (1 * 2 ^ 1) = 2 := by
    rw [computeWait_of_no_hint _ _ (by decide)]
    norm_num
  have c2 : computeWait (rlHintErr 2) (1 * 2 ^ 2) = 4 := by
    rw [computeWait_of_no_hint _ _ (by decide)]
    norm_num
  have hsleeps : (retryExec
      (fun n => (Except.error (rlHintErr n) : Except String Unit))
        3 1 2).2 = [5, 2, 4] := by
    unfold retryExec
    rw [h]
    simp only [List.nil_append]
    have r3 : List.range 3 = [0, 1, 2] := rfl
    rw [r3]
    simp only [List.map_cons, List.map_nil, Nat.zero_add]
    rw [c0, c1, c2]
  refine ⟨hsleeps, ?_⟩
  rw [hsleeps]
  intro hch
  rw [List.chain'_cons] at hch
  have h52 : ¬ ((5 : ℚ) ≤ 2) := by norm_num
  exact h52 hch.1

/-- C4 (amended): with `max_retries = 3` (and the decorator's default
`initial_delay = 1`, `exponential_base = 2`), an operation failing with a
rate-limit-flavored error on every attempt sleeps exactly 3 times — the
n-th sleep being `computeWait` of the n-th error at computed delay `2^n` —
and then re-raises the final (most recent) failure, never returning
normally.  Each sleep is at least its computed exponential delay, and when
no error embeds a retry-after hint the sleeps are exactly `[1, 2, 4]`,
which is non-decreasing; a hint can only lengthen an individual sleep, and
may therefore make an earlier sleep exceed a later one. -/
theorem retry_persistent_rate_limit_amended {α : Type} (err : Nat → String)
    (hrl : ∀ k, isRateLimit (err k) = true) :
    (retryExec (fun n => (Except.error (err n) : Except String α)) 3 1 2).1
        = Except.error (err 3) ∧
    (retryExec (fun n => (Except.error (err n) : Except String α)) 3 1 2).2
        = [computeWait (err 0) 1, computeWait (err 1) 2,
           computeWait (err 2) 4] ∧
    (1 : ℚ) ≤ computeWait (err 0) 1 ∧
    (2 : ℚ) ≤ computeWait (err 1) 2 ∧
    (4 : ℚ) ≤ computeWait (err 2) 4 ∧
    (extract_hint (err 0) = none → extract_hint (err 1) = none →
      extract_hint (err 2) = none →
      (retryExec (fun n => (Except.error (err n) : Except String α)) 3 1 2).2
        = [1, 2, 4]) := by
  have h := retryAux_allError (α := α) err hrl 2 3 0 1 []
  have hr3 : (List.range 3).map
        (fun j => computeWait (err (0 + j)) (1 * 2 ^ j))
      = [computeWait (err 0) 1, computeWait (err 1) 2,
         computeWait (err 2) 4] := by
    norm_num [List.range_succ]
  refine ⟨?_, ?_, le_computeWait _ _, le_computeWait _ _,
    le_computeWait _ _, ?_⟩
  · unfold retryExec
    rw [h]
  · unfold retryExec
    rw [h]
    simp only [List.nil_append]
    exact hr3
  · intro h0 h1 h2
    unfold retryExec
    rw [h]
    simp only [List.nil_append]
    rw [hr3, computeWait_of_no_hint _ _ h0, computeWait_of_no_hint _ _ h1,
      computeWait_of_no_hint _ _ h2]

/-- C4 witness. -/
theorem retry_persistent_rate_limit_amended_witness :
    (retryExec (fun n => (Except.error (rlHintErr n) : Except String Unit))
        3 1 2).1 = Except.error (rlHintErr 3) ∧
    (retryExec (fun n => (Except.error (rlHintErr n) : Except String Unit))
        3 1 2).2
        = [computeWait (rlHintErr 0) 1, computeWait (rlHintErr 1) 2,
           computeWait (rlHintErr 2) 4] ∧
    (1 : ℚ) ≤ computeWait (rlHintErr 0) 1 ∧
    (2 : ℚ) ≤ computeWait (rlHintErr 1) 2 ∧
    (4 : ℚ) ≤ computeWait (rlHintErr 2) 4 ∧
    (extract_hint (rlHintErr 0) = none → extract_hint (rlHintErr 1) = none →
      extract_hint (rlHintErr 2) = none →
      (retryExec (fun n => (Except.error (rlHintErr n) : Except String Unit))
        3 1 2).2 = [1, 2, 4]) :=
  retry_persistent_rate_limit_amended rlHintErr
    (by
      intro k
      unfold rlHintErr
      by_cases h : k = 0
      · simp only [h, if_true]
        decide
      · simp only [h, if_false]
        decide)

/-- C7: for every retry attempt `n` (attempts `0..n` all failed with a
rate-limit-flavored error and `n < max_retries`), the recorded sleep is
`computeWait (err n) (initial_delay * base ^ n)`: exactly the computed
exponential delay when the error embeds no `try again in N ms` hint, and
`max (N / 1000) (initial_delay * base ^ n)` when it does — the hint can
never shorten the wait below the computed delay. -/
theorem retry_wait_time_formula {α : Type} (op : Nat → Except String α)
    (err : Nat → String) (mr n : Nat) (i b : ℚ) (hn : n < mr)
    (hop : ∀ k, k ≤ n → op k = Except.error (err k) ∧
        isRateLimit (err k) = true) :
    (retryExec op mr i b).2[n]? = some (computeWait (err n) (i * b ^ n)) ∧
    i * b ^ n ≤ computeWait (err n) (i * b ^ n) ∧
    (∀ ms, extract_hint (err n) = some ms →
      computeWait (err n) (i * b ^ n) = max ((ms : ℚ) / 1000) (i * b ^ n)) ∧
    (extract_hint (err n) = none →
      computeWait (err n) (i * b ^ n) = i * b ^ n) := by
  refine ⟨?_, le_computeWait _ _,
    fun ms hms => computeWait_of_hint _ _ ms hms,
    fun hnone => computeWait_of_no_hint _ _ hnone⟩
  obtain ⟨t, ht⟩ := retryAux_sleeps_after_rl_failures op err b n mr 0 i []
    hn (by intro k hk; simpa using hop k hk)
  unfold retryExec
  rw [ht]
  simp only [List.nil_append]
  have hlen : ((List.range (n + 1)).map
      (fun j => computeWait (err (0 + j)) (i * b ^ j))).length = n + 1 := by
    simp
  rw [List.getElem?_append, hlen, if_pos (by omega)]
  simp [List.getElem?_map, List.getElem?_range, Nat.lt_succ_iff]

/-- C7 witness. -/
theorem retry_wait_time_formula_witness :
    (retryExec (fun _ => (Except.error "429 try again in 250ms" :
        Except String Unit)) 2 1 2).2[1]?
      = some (computeWait "429 try again in 250ms" (1 * 2 ^ 1)) ∧
    (1 : ℚ) * 2 ^ 1 ≤ computeWait "429 try again in 250ms" (1 * 2 ^ 1) ∧
    (∀ ms, extract_hint "429 try again in 250ms" = some ms →
      computeWait "429 try again in 250ms" (1 * 2 ^ 1)
        = max ((ms : ℚ) / 1000) (1 * 2 ^ 1)) ∧
    (extract_hint "429 try again in 250ms" = none →
      computeWait "429 try again in 250ms" (1 * 2 ^ 1) = 1 * 2 ^ 1) :=
  retry_wait_time_formula
    (fun _ => (Except.error "429 try again in 250ms" : Except String Unit))
    (fun _ => "429 try again in 250ms") 2 1 1 2 (by omega)
    (by
      intro _ _
      refine ⟨rfl, ?_⟩
      show isRateLimit "429 try again in 250ms" = true
      decide)

theorem waitAux_ok_terminal (retrieve : Nat → Except String String)
    (elapsedAt : Nat → ℚ) (timeout : ℚ) :
    ∀ fuel n status s,
    waitAux retrieve elapsedAt timeout fuel n status = some (.ok s) →
    nonTerminalStatus s = false := by
  intro fuel
  induction fuel with
  | zero =>
    intro n status s h
    simp [waitAux] at h
  | succ fuel ih =>
    intro n status s h
    rw [waitAux] at h
    by_cases hnt : nonTerminalStatus status
    · simp only [hnt, if_true] at h
      by_cases htime : timeout < elapsedAt n
      · simp [htime] at h
      · simp only [htime, if_false] at h
        cases hr : retrieve n with
        | error e => rw [hr] at h; simp at h
        | ok s2 => rw [hr] at h; exact ih (n + 1) s2 s h
    · rw [Bool.not_eq_true] at hnt
      rw [hnt] at h
      simp only [Bool.false_eq_true, if_false, Option.some.injEq,
        WaitOutcome.ok.injEq] at h
      rw [← h]
      exact hnt

theorem waitAux_all_nonterminal_timeout (retrieve : Nat → Except String String)
    (elapsedAt : Nat → ℚ) (timeout : ℚ)
    (hall : ∀ k, ∃ s, retrieve k = Except.ok s ∧ nonTerminalStatus s = true) :
    ∀ fuel n status, nonTerminalStatus status = true →
    timeout < elapsedAt (n + fuel) →
    waitAux retrieve elapsedAt timeout (fuel + 1) n status = some .timeout := by
  intro fuel
  induction fuel with
  | zero =>
    intro n status hnt htime
    rw [waitAux]
    rw [Nat.add_zero] at htime
    simp [hnt, htime]
  | succ fuel ih =>
    intro n status hnt htime
    rw [waitAux]
    simp only [hnt, if_true]
    by_cases hnow : timeout < elapsedAt n
    · simp [hnow]
    · simp only [hnow, if_false]
      obtain ⟨s, hr, hs⟩ := hall n
      rw [hr]
      have : n + 1 + fuel = n + (fuel + 1) := by omega
      exact ih (n + 1) s hs (by rw [this]; exact htime)

theorem elapsedAt_lower (elapsedAt : Nat → ℚ) (poll : ℚ)
    (hstep : ∀ n, elapsedAt n + poll ≤ elapsedAt (n + 1))
    (h0 : 0 ≤ elapsedAt 0) :
    ∀ n : Nat, (n : ℚ) * poll ≤ elapsedAt n := by
  intro n
  induction n with
  | zero => simpa using h0
  | succ n ih =>
    have h := hstep n
    push_cast
    nlinarith [ih, h]

/-- C3: for a run whose status stays non-terminal (`queued`, `in_progress`
or `requires_action` — the latter polled like any other non-terminal
state), `wait_on_response` never returns a non-terminal status: whenever it
returns `.ok s`, `s` is terminal, and if every poll yields a non-terminal
status the loop inevitably raises `TimeoutError` once the elapsed wall time
exceeds `timeout` (the elapsed time is only assumed to start at `≥ 0` and
to grow by at least `poll_interval` per iteration, so this is a hard
wall-clock deadline, not a retry count). -/
theorem wait_on_response_terminal_or_timeout
    (retrieve : Nat → Except String String) (elapsedAt : Nat → ℚ)
    (poll timeout : ℚ) (hpoll : 0 < poll)
    (hstep : ∀ n, elapsedAt n + poll ≤ elapsedAt (n + 1))
    (h0 : 0 ≤ elapsedAt 0) :
    nonTerminalStatus "requires_action" = true ∧
    (∀ fuel status s,
      wait_on_response retrieve elapsedAt timeout fuel status
          = some (.ok s) →
      nonTerminalStatus s = false) ∧
    ((∀ k, ∃ s, retrieve k = Except.ok s ∧ nonTerminalStatus s = true) →
      ∀ status, nonTerminalStatus status = true →
      ∃ fuel, wait_on_response retrieve elapsedAt timeout fuel status
          = some WaitOutcome.timeout) := by
  refine ⟨by decide, ?_, ?_⟩
  · intro fuel status s h
    exact waitAux_ok_terminal retrieve elapsedAt timeout fuel 0 status s h
  · intro hall status hnt
    obtain ⟨N, hN⟩ : ∃ N : Nat, timeout < (N : ℚ) * poll := by
      refine ⟨⌈timeout / poll⌉₊ + 1, ?_⟩
      have hceil : timeout / poll ≤ (⌈timeout / poll⌉₊ : ℚ) := Nat.le_ceil _
      have : timeout / poll < ((⌈timeout / poll⌉₊ + 1 : Nat) : ℚ) := by
        push_cast
        linarith
      calc timeout = timeout / poll * poll := by
            field_simp
        _ < ((⌈timeout / poll⌉₊ + 1 : Nat) : ℚ) * poll := by
            exact mul_lt_mul_of_pos_right this hpoll
    refine ⟨N + 1, ?_⟩
    have hle := elapsedAt_lower elapsedAt poll hstep h0 N
    exact waitAux_all_nonterminal_timeout retrieve elapsedAt timeout hall N 0
      status hnt (by simpa using lt_of_lt_of_le hN hle)

/-- C3 witness. -/
theorem wait_on_response_terminal_or_timeout_witness :
    nonTerminalStatus "requires_action" = true ∧
    (∀ fuel status s,
      wait_on_response
          (fun _ => (Except.ok "in_progress" : Except String String))
          (fun n => (n : ℚ)) 5 fuel status = some (.ok s) →
      nonTerminalStatus s = false) ∧
    ((∀ k : Nat, ∃ s : String,
        (fun (_ : Nat) => (Except.ok "in_progress" : Except String String)) k
            = Except.ok s ∧
        nonTerminalStatus s = true) →
      ∀ status, nonTerminalStatus status = true →
      ∃ fuel, wait_on_response
          (fun _ => (Except.ok "in_progress" : Except String String))
          (fun n => (n : ℚ)) 5 fuel status = some WaitOutcome.timeout) :=
  wait_on_response_terminal_or_timeout
    (fun _ => (Except.ok "in_progress" : Except String String))
    (fun n => (n : ℚ)) 1 5 (by norm_num)
    (by intro n; push_cast; linarith) (by norm_num)

/-- C6 counterexample: a single rate-limit-flavored failure of one poll's
`responses.retrieve` aborts the whole wait (the loop returns that error
rather than retrying), even though the very next poll would have returned
`completed` — so poll refreshes are not wrapped by the Backoff Executor. -/
theorem poll_fetch_failure_aborts_cex :
    waitAux (fun k => if k = 0 then Except.error "Error code: 429"
        else Except.ok "completed")
      (fun k => (k : ℚ)) 100 10 0 "queued" = some (.err "Error code: 429") ∧
    isRateLimit "Error code: 429" = true := by
  constructor
  · decide
  · decide

/-- C6 (amended): the poll refreshes of `wait_on_response` are NOT wrapped
by the Backoff Executor: the loop calls `responses.retrieve` bare, so any
fetch failure during polling — rate-limit-flavored or not — propagates
immediately out of the wait on its first occurrence, with no retry. -/
theorem poll_fetch_failure_propagates
    (retrieve : Nat → Except String String) (elapsedAt : Nat → ℚ)
    (timeout : ℚ) (fuel n : Nat) (status e : String)
    (hnt : nonTerminalStatus status = true)
    (htime : ¬ timeout < elapsedAt n)
    (herr : retrieve n = Except.error e) :
    waitAux retrieve elapsedAt timeout (fuel + 1) n status
      = some (.err e) := by
  rw [waitAux]
  simp [hnt, htime, herr]

/-- C6 witness. -/
theorem poll_fetch_failure_propagates_witness :
    waitAux (fun _ => Except.error "rate_limit_exceeded")
      (fun k => (k : ℚ)) 100 (9 + 1) 0 "in_progress"
      = some (.err "rate_limit_exceeded") :=
  poll_fetch_failure_propagates (fun _ => Except.error "rate_limit_exceeded")
    (fun k => (k : ℚ)) 100 9 0 "in_progress" "rate_limit_exceeded"
    (by decide) (by norm_num) rfl

theorem mem_annFromInline_file_id (rid ccid : Option String)
    (ann : InlineAnn) (a : Annot) (h : a ∈ annFromInline rid ccid ann) :
    ∃ s, a.file_id = some s ∧ s ≠ "" := by
  unfold annFromInline at h
  by_cases ht : (ann.type_ == "container_file_citation"
      || ann.type_ == "file_citation" || ann.type_ == "file_path") = true
  · rw [if_pos ht] at h
    by_cases hf : strTruthy (pyOr ann.file_id ann.id) = true
    · rw [if_pos hf] at h
      obtain ⟨s, hs, hne⟩ := (strTruthy_iff _).mp hf
      simp only [List.mem_singleton] at h
      refine ⟨s, ?_, hne⟩
      rw [h, hs]
    · rw [if_neg hf] at h
      simp at h
  · rw [if_neg ht] at h
    simp at h

theorem mem_annFromInline_container (rid ccid : Option String)
    (ann : InlineAnn) (a : Annot) (h : a ∈ annFromInline rid ccid ann) :
    a.container_id = ccid := by
  unfold annFromInline at h
  by_cases ht : (ann.type_ == "container_file_citation"
      || ann.type_ == "file_citation" || ann.type_ == "file_path") = true
  · rw [if_pos ht] at h
    by_cases hf : strTruthy (pyOr ann.file_id ann.id) = true
    · rw [if_pos hf] at h
      simp only [List.mem_singleton] at h
      rw [h]
    · rw [if_neg hf] at h
      simp at h
  · rw [if_neg ht] at h
    simp at h

theorem mem_outputFileAnn_file_id (rid ccid : Option String) (f : FileObj)
    (a : Annot) (h : a ∈ outputFileAnn rid ccid f) :
    ∃ s, a.file_id = some s ∧ s ≠ "" := by
  unfold outputFileAnn at h
  by_cases hf : strTruthy (pyOr f.id (f.file_id.getD none)) = true
  · rw [if_pos hf] at h
    obtain ⟨s, hs, hne⟩ := (strTruthy_iff _).mp hf
    simp only [List.mem_singleton] at h
    refine ⟨s, ?_, hne⟩
    rw [h, hs]
  · rw [if_neg hf] at h
    simp at h

theorem filePathAnns_raises (rid ccid : Option String) (item : ContentItem)
    (fp : FileObj) (htype : item.type_ = "file_path")
    (hfp : item.file_path = some fp) (hfid : fp.file_id = none) :
    filePathAnns rid ccid item = Except.error PyErr.attributeError := by
  unfold filePathAnns
  simp [htype, hfp, hfid, pyattr]

/-- C1 counterexample: a raw result with a single `output_file` content
item whose file object has `file_id = None` and no `id` — normalization
emits an annotation whose `file_id` is `None`, instead of dropping it. -/
theorem normalizer_null_file_id_cex :
    (parse_response_output
      { id := some "resp_1", output_text := none,
        output := some
          [ { container_id := none,
              content :=
                [ { type_ := "output_file", text := none, output_text := none,
                    value := none, file_path := none, image_file := none,
                    image := none, annotations := [],
                    file := some { file_id := some none, id := none,
                                   filename := none, path := none,
                                   filepath := none, mime_type := none,
                                   content_type := none } } ] } ],
        output_files := none }).toOption.map
      (fun p => p.2.map Annot.file_id) = some [none] := by
  rfl

/-- C1 (amended): inline citation-style annotations and top-level
`output_files` entries are only emitted with a truthy (non-`None`,
non-empty) `file_id` — a falsy identifier drops them, as the claim says.
But the invariant fails for the content-item branches: an item of type
`file_path` (likewise `image_file`) whose payload object lacks the
`file_id` attribute makes normalization raise `AttributeError`, and an
item of type `output_file` (likewise `file`/`output_image`/`image`) whose
payload carries no identifier emits an annotation with a `None`
`file_id`. -/
theorem normalizer_file_id_amended :
    (∀ rid ccid ann a, a ∈ annFromInline rid ccid ann →
      ∃ s, a.file_id = some s ∧ s ≠ "") ∧
    (∀ rid ccid f a, a ∈ outputFileAnn rid ccid f →
      ∃ s, a.file_id = some s ∧ s ≠ "") ∧
    (∀ rid ccid (item : ContentItem) fp, item.type_ = "file_path" →
      item.file_path = some fp → fp.file_id = none →
      processItem rid ccid item = Except.error PyErr.attributeError) ∧
    (∀ rid ccid (item : ContentItem) fobj, item.type_ = "output_file" →
      item.file = some fobj → fobj.file_id = some none →
      ∃ ts anns, processItem rid ccid item = Except.ok (ts, anns) ∧
        anns.head?.map Annot.file_id = some none) := by
  refine ⟨mem_annFromInline_file_id, mem_outputFileAnn_file_id, ?_, ?_⟩
  · intro rid ccid item fp htype hfp hfid
    unfold processItem
    rw [filePathAnns_raises rid ccid item fp htype hfp hfid]
    cases himg : imageFileAnns rid ccid item <;> rfl
  · intro rid ccid item fobj htype hfile hfid
    have h1 : filePathAnns rid ccid item = Except.ok [] := by
      unfold filePathAnns
      rw [htype]
      rfl
    have h2 : imageFileAnns rid ccid item = Except.ok [] := by
      unfold imageFileAnns
      rw [htype]
      rfl
    have h3 : outputImageItemAnns rid ccid item = [] := by
      unfold outputImageItemAnns
      rw [htype]
      rfl
    have hof : outputFileItemAnns rid ccid item
        = [{ type_ := "file_path", file_id := none,
             text := some (item.text.getD (.str "")),
             filename := pyOr fobj.filename fobj.path,
             path := pyOr fobj.path fobj.filepath,
             mime_type := pyOr fobj.mime_type fobj.content_type,
             response_id := rid, container_id := ccid }] := by
      unfold outputFileItemAnns
      simp [htype, hfile, hfid]
    refine ⟨itemTexts item,
      outputFileItemAnns rid ccid item ++ inlineAnns rid ccid item, ?_, ?_⟩
    · unfold processItem
      rw [h1, h2]
      simp [h3]
    · rw [hof]
      rfl

/-- C1 witness. -/
theorem normalizer_file_id_amended_witness :
    processItem none none
      { type_ := "file_path", text := none, output_text := none,
        value := none, image_file := none, file := none, image := none,
        annotations := [],
        file_path := some { file_id := none, id := none, filename := none,
                            path := none, filepath := none, mime_type := none,
                            content_type := none } }
      = Except.error PyErr.attributeError ∧
    (∃ ts anns, processItem none none
      { type_ := "output_file", text := none, output_text := none,
        value := none, file_path := none, image_file := none, image := none,
        annotations := [],
        file := some { file_id := some none, id := none, filename := none,
                       path := none, filepath := none, mime_type := none,
                       content_type := none } }
      = Except.ok (ts, anns) ∧ anns.head?.map Annot.file_id = some none) :=
  ⟨normalizer_file_id_amended.2.2.1 none none _ _ rfl rfl rfl,
   normalizer_file_id_amended.2.2.2 none none _ _ rfl rfl rfl⟩

/-- C2 counterexample: an inline `file_citation` whose `file_id` is
`chart.PNG` — which ends in `.png` case-insensitively — is emitted with
kind `file_path`, not `image_file`: the source's extension check is
case-sensitive. -/
theorem inline_kind_case_sensitive_cex :
    (annFromInline none none
      { type_ := "file_citation", file_id := some "chart.PNG", id := none,
        text := none, filename := none, path := none, filepath := none,
        mime_type := none, content_type := none }).map Annot.type_
      = ["file_path"] ∧
    endsWithAny (lowerStr "chart.PNG") imageExts = true := by
  constructor
  · rfl
  · rfl

/-- C2 (amended): for every inline citation-style annotation with a truthy
file identifier, the emitted annotation's kind is `image_file` if and only
if the `file_id` string ends — case-SENSITIVELY — in one of the lowercase
suffixes `.png/.jpg/.jpeg/.gif/.svg/.webp`; otherwise the kind is
`file_path` (so an uppercase variant such as `chart.PNG` yields
`file_path`). -/
theorem inline_kind_amended (rid ccid : Option String) (ann : InlineAnn)
    (s : String)
    (htype : ann.type_ = "container_file_citation" ∨
      ann.type_ = "file_citation" ∨ ann.type_ = "file_path")
    (hfid : pyOr ann.file_id ann.id = some s) (hs : s ≠ "") :
    ∃ a, annFromInline rid ccid ann = [a] ∧ a.file_id = some s ∧
      (a.type_ = "image_file" ↔ endsWithAny s imageExts = true) ∧
      (a.type_ = "file_path" ↔ endsWithAny s imageExts = false) := by
  have ht : (ann.type_ == "container_file_citation"
      || ann.type_ == "file_citation" || ann.type_ == "file_path") = true := by
    rcases htype with h | h | h <;> simp [h]
  have hf : strTruthy (pyOr ann.file_id ann.id) = true :=
    (strTruthy_iff _).mpr ⟨s, hfid, hs⟩
  unfold annFromInline
  rw [if_pos ht, if_pos hf, hfid]
  simp only [Option.getD_some]
  by_cases he : endsWithAny s imageExts = true
  · rw [if_pos he]
    exact ⟨_, rfl, rfl, by simp [he], by simp [he]⟩
  · rw [Bool.not_eq_true] at he
    rw [if_neg (by simp [he])]
    exact ⟨_, rfl, rfl, by simp [he], by simp [he]⟩

/-- C2 witness. -/
theorem inline_kind_amended_witness :
    ∃ a, annFromInline none none
      { type_ := "file_citation", file_id := some "plot.png", id := none,
        text := none, filename := none, path := none, filepath := none,
        mime_type := none, content_type := none } = [a] ∧
      a.file_id = some "plot.png" ∧
      (a.type_ = "image_file" ↔ endsWithAny "plot.png" imageExts = true) ∧
      (a.type_ = "file_path" ↔ endsWithAny "plot.png" imageExts = false) :=
  inline_kind_amended none none
    { type_ := "file_citation", file_id := some "plot.png", id := none,
      text := none, filename := none, path := none, filepath := none,
      mime_type := none, content_type := none }
    "plot.png" (Or.inr (Or.inl rfl)) rfl (by decide)

theorem filePathAnns_container (rid ccid : Option String)
    (item : ContentItem) (l : List Annot)
    (h : filePathAnns rid ccid item = Except.ok l) :
    ∀ a ∈ l, a.container_id = ccid := by
  unfold filePathAnns at h
  by_cases ht : (item.type_ == "file_path") = true
  · rw [if_pos ht] at h
    cases hfp : item.file_path with
    | none =>
      rw [hfp] at h
      injection h with h
      rw [← h]
      intro a ha
      simp at ha
    | some fp =>
      rw [hfp] at h
      cases hq : fp.file_id with
      | none => simp [pyattr, hq] at h
      | some v =>
        simp only [hq, pyattr, Except.ok.injEq] at h
        intro a ha
        rw [← h] at ha
        simp only [List.mem_singleton] at ha
        rw [ha]
  · rw [if_neg ht] at h
    injection h with h
    rw [← h]
    intro a ha
    simp at ha

theorem imageFileAnns_container (rid ccid : Option String)
    (item : ContentItem) (l : List Annot)
    (h : imageFileAnns rid ccid item = Except.ok l) :
    ∀ a ∈ l, a.container_id = ccid := by
  unfold imageFileAnns at h
  by_cases ht : (item.type_ == "image_file") = true
  · rw [if_pos ht] at h
    cases hfp : item.image_file with
    | none =>
      rw [hfp] at h
      injection h with h
      rw [← h]
      intro a ha
      simp at ha
    | some img =>
      rw [hfp] at h
      cases hq : img.file_id with
      | none => simp [pyattr, hq] at h
      | some v =>
        simp only [hq, pyattr, Except.ok.injEq] at h
        intro a ha
        rw [← h] at ha
        simp only [List.mem_singleton] at ha
        rw [ha]
  · rw [if_neg ht] at h
    injection h with h
    rw [← h]
    intro a ha
    simp at ha

theorem outputFileItemAnns_container (rid ccid : Option String)
    (item : ContentItem) :
    ∀ a ∈ outputFileItemAnns rid ccid item, a.container_id = ccid := by
  unfold outputFileItemAnns
  by_cases ht : (item.type_ == "output_file" || item.type_ == "file") = true
  · rw [if_pos ht]
    cases hf : item.file with
    | none => intro a ha; simp at ha
    | some fobj =>
      intro a ha
      simp only [List.mem_singleton] at ha
      rw [ha]
  · rw [if_neg ht]
    intro a ha
    simp at ha

theorem outputImageItemAnns_container (rid ccid : Option String)
    (item : ContentItem) :
    ∀ a ∈ outputImageItemAnns rid ccid item, a.container_id = ccid := by
  unfold outputImageItemAnns
  by_cases ht : (item.type_ == "output_image" || item.type_ == "image") = true
  · rw [if_pos ht]
    cases hf : item.image with
    | none => intro a ha; simp at ha
    | some img =>
      intro a ha
      simp only [List.mem_singleton] at ha
      rw [ha]
  · rw [if_neg ht]
    intro a ha
    simp at ha

theorem inlineAnns_container (rid ccid : Option String)
    (item : ContentItem) :
    ∀ a ∈ inlineAnns rid ccid item, a.container_id = ccid := by
  unfold inlineAnns
  intro a ha
  simp only [List.mem_flatten, List.mem_map] at ha
  obtain ⟨l, ⟨ann, _, rfl⟩, hal⟩ := ha
  exact mem_annFromInline_container rid ccid ann a hal

theorem processItem_container (rid ccid : Option String)
    (item : ContentItem) (ts : List String) (anns : List Annot)
    (h : processItem rid ccid item = Except.ok (ts, anns)) :
    ∀ a ∈ anns, a.container_id = ccid := by
  unfold processItem at h
  cases h1 : filePathAnns rid ccid item with
  | error e => rw [h1] at h; exact absurd h (by simp)
  | ok a1 =>
    cases h2 : imageFileAnns rid ccid item with
    | error e => rw [h1, h2] at h; exact absurd h (by simp)
    | ok a2 =>
      rw [h1, h2] at h
      simp only [Except.ok.injEq, Prod.mk.injEq] at h
      obtain ⟨-, hanns⟩ := h
      rw [← hanns]
      intro a ha
      simp only [List.mem_append] at ha
      rcases ha with ((((ha | ha) | ha) | ha) | ha)
      · exact filePathAnns_container rid ccid item a1 h1 a ha
      · exact imageFileAnns_container rid ccid item a2 h2 a ha
      · exact outputFileItemAnns_container rid ccid item a ha
      · exact outputImageItemAnns_container rid ccid item a ha
      · exact inlineAnns_container rid ccid item a ha

theorem processItems_container (rid ccid : Option String) :
    ∀ (items : List ContentItem) (ts0 : List String) (anns0 : List Annot)
      (ts : List String) (anns : List Annot),
    processItems rid ccid ts0 anns0 items = Except.ok (ts, anns) →
    ∀ a ∈ anns, a ∈ anns0 ∨ a.container_id = ccid := by
  intro items
  induction items with
  | nil =>
    intro ts0 anns0 ts anns h a ha
    rw [processItems] at h
    simp only [Except.ok.injEq, Prod.mk.injEq] at h
    obtain ⟨-, hanns⟩ := h
    rw [← hanns] at ha
    exact Or.inl ha
  | cons item rest ih =>
    intro ts0 anns0 ts anns h a ha
    rw [processItems] at h
    cases hi : processItem rid ccid item with
    | error e => rw [hi] at h; exact absurd h (by simp)
    | ok p =>
      rw [hi] at h
      rcases p with ⟨ts2, anns2⟩
      rcases ih (ts0 ++ ts2) (anns0 ++ anns2) ts anns h a ha with hmem | hcc
      · simp only [List.mem_append] at hmem
        rcases hmem with hmem | hmem
        · exact Or.inl hmem
        · exact Or.inr (processItem_container rid ccid item ts2 anns2 hi a hmem)
      · exact Or.inr hcc

theorem processBlock_container (rid ccid : Option String) (b : OutBlock)
    (c : Option String) (ts : List String) (anns : List Annot)
    (h : processBlock rid ccid b = Except.ok (c, ts, anns)) :
    c = b.container_id.getD ccid ∧ ∀ a ∈ anns, a.container_id = c := by
  simp only [processBlock] at h
  cases hi : processItems rid (b.container_id.getD ccid) [] [] b.content with
  | error e => rw [hi] at h; exact absurd h (by simp)
  | ok p =>
    rw [hi] at h
    rcases p with ⟨ts2, anns2⟩
    simp only [Except.ok.injEq, Prod.mk.injEq] at h
    obtain ⟨hc, -, hanns⟩ := h
    subst hc
    constructor
    · rfl
    · intro a ha
      rw [← hanns] at ha
      rcases processItems_container rid _ b.content [] [] ts2 anns2 hi a ha
        with hmem | hcc
      · simp at hmem
      · exact hcc

theorem processBlocks_append (rid : Option String) :
    ∀ (bs1 bs2 : List OutBlock) (ccid : Option String) (ts : List String)
      (anns : List Annot),
    processBlocks rid ccid ts anns (bs1 ++ bs2)
      = match processBlocks rid ccid ts anns bs1 with
        | .error e => .error e
        | .ok (c, t, a) => processBlocks rid c t a bs2 := by
  intro bs1
  induction bs1 with
  | nil =>
    intro bs2 ccid ts anns
    simp [processBlocks]
  | cons b bs1 ih =>
    intro bs2 ccid ts anns
    rw [List.cons_append]
    simp only [processBlocks]
    cases hb : processBlock rid ccid b with
    | error e => simp
    | ok r =>
      rcases r with ⟨c, ts2, anns2⟩
      exact ih bs2 c (ts ++ ts2) (anns ++ anns2)

/-- C9 counterexample: the first block carries `container_id = "cntr_1"`
(and no items); the second block has NO `container_id` attribute of its
own, yet the annotation emitted from its item inherits `"cntr_1"` — the
tracked id is carried across blocks, not only within one block. -/
theorem container_id_cross_block_cex :
    (parse_response_output
      { id := some "resp_1", output_text := none,
        output := some
          [ { container_id := some (some "cntr_1"), content := [] },
            { container_id := none,
              content :=
                [ { type_ := "output_file", text := none, output_text := none,
                    value := none, file_path := none, image_file := none,
                    image := none, annotations := [],
                    file := some { file_id := some (some "f1"), id := none,
                                   filename := none, path := none,
                                   filepath := none, mime_type := none,
                                   content_type := none } } ] } ],
        output_files := none }).toOption.map
      (fun p => p.2.map Annot.container_id) = some [some "cntr_1"] := by
  rfl

/-- C9 (amended): the tracked sandbox/container id is carried forward
across blocks, not reset at block boundaries: appending a block `b` after
blocks `bs1` (which leave the tracked id at `c1`), every annotation emitted
from `b`'s items carries `b.container_id.getD c1` — that is, `b`'s own id
when the attribute is present, and the id inherited from earlier blocks
(`c1`) when `b` has no `container_id` attribute of its own.  Earlier
blocks' annotations are unchanged. -/
theorem container_id_carry_amended (rid : Option String)
    (bs1 : List OutBlock) (b : OutBlock) (c1 : Option String)
    (ts1 : List String) (anns1 : List Annot)
    (h1 : processBlocks rid none [] [] bs1 = Except.ok (c1, ts1, anns1))
    (c2 : Option String) (ts2 : List String) (anns2 : List Annot)
    (h2 : processBlocks rid none [] [] (bs1 ++ [b])
        = Except.ok (c2, ts2, anns2)) :
    c2 = b.container_id.getD c1 ∧
    anns2.take anns1.length = anns1 ∧
    (∀ a ∈ anns2.drop anns1.length,
      a.container_id = b.container_id.getD c1) ∧
    (b.container_id = none →
      ∀ a ∈ anns2.drop anns1.length, a.container_id = c1) := by
  have h2b : processBlocks rid c1 ts1 anns1 [b] = Except.ok (c2, ts2, anns2)
      := by
    rw [← h2, processBlocks_append rid bs1 [b] none [] [], h1]
  simp only [processBlocks] at h2b
  cases hb : processBlock rid c1 b with
  | error e =>
    rw [hb] at h2b
    simp at h2b
  | ok r =>
    rcases r with ⟨c, T, A⟩
    rw [hb] at h2b
    simp only [Except.ok.injEq, Prod.mk.injEq] at h2b
    obtain ⟨hc, hts, hanns⟩ := h2b
    obtain ⟨hcc, hA⟩ := processBlock_container rid c1 b c T A hb
    refine ⟨?_, ?_, ?_, ?_⟩
    · rw [← hc]
      exact hcc
    · rw [← hanns, List.take_left]
    · intro a ha
      rw [← hanns, List.drop_left] at ha
      rw [← hcc]
      exact hA a ha
    · intro hnone a ha
      rw [← hanns, List.drop_left] at ha
      have hcx : c = c1 := by
        rw [hcc, hnone]
        rfl
      rw [← hcx]
      exact hA a ha

/-- Blocks of the C9 witness: the first carries a container id, the second
has no `container_id` attribute. -/
def cntrBlockA : OutBlock :=
  { container_id := some (some "cntr_1"), content := [] }

def cntrBlockB : OutBlock :=
  { container_id := none,
    content :=
      [ { type_ := "output_file", text := none, output_text := none,
          value := none, file_path := none, image_file := none,
          image := none, annotations := [],
          file := some { file_id := some (some "f1"), id := none,
                         filename := none, path := none, filepath := none,
                         mime_type := none, content_type := none } } ] }

def cntrAnnB : Annot :=
  { type_ := "file_path", file_id := some "f1",
    text := some (PyTextVal.str ""), filename := none, path := none,
    mime_type := none, response_id := none, container_id := some "cntr_1" }

/-- C9 witness. -/
theorem container_id_carry_amended_witness :
    some "cntr_1" = cntrBlockB.container_id.getD (some "cntr_1") ∧
    ([cntrAnnB].take (List.length ([] : List Annot)) = ([] : List Annot)) ∧
    (∀ a ∈ [cntrAnnB].drop (List.length ([] : List Annot)),
      a.container_id = cntrBlockB.container_id.getD (some "cntr_1")) ∧
    (cntrBlockB.container_id = none →
      ∀ a ∈ [cntrAnnB].drop (List.length ([] : List Annot)),
        a.container_id = some "cntr_1") :=
  container_id_carry_amended none [cntrBlockA] cntrBlockB (some "cntr_1")
    [] [] rfl (some "cntr_1") [] [cntrAnnB] rfl

/-- C8: `download_container_file` resolves the download filename by trying,
in order: the base name of the metadata's sandbox `path`, then the
metadata's `filename`/`name` field, then the content object's `filename`,
then the raw file id; the content type is guessed from the resolved name
with fallback `application/octet-stream`.  In particular
`path="/sandbox/out/chart.png"` with no filename fields resolves to
`chart.png` with content type `image/png`. -/
theorem file_relay_filename_resolution :
    (∀ fid info data p, info.path = some p → p ≠ "" → os_basename p ≠ "" →
      resolve_download_filename fid info data = os_basename p) ∧
    (∀ fid info data fn, strTruthy info.path = false →
      info.filename = some fn → fn ≠ "" →
      resolve_download_filename fid info data = fn) ∧
    (∀ fid info data nm, strTruthy info.path = false →
      strTruthy info.filename = false → info.name = some nm → nm ≠ "" →
      resolve_download_filename fid info data = nm) ∧
    (∀ fid info data dfn, strTruthy info.path = false →
      strTruthy info.filename = false → strTruthy info.name = false →
      data.filename = some dfn → dfn ≠ "" →
      resolve_download_filename fid info data = dfn) ∧
    (∀ fid info data, strTruthy info.path = false →
      strTruthy info.filename = false → strTruthy info.name = false →
      strTruthy data.filename = false →
      resolve_download_filename fid info data = fid) ∧
    (resolve_download_filename "cfile_abc"
        { path := some "/sandbox/out/chart.png", filename := none,
          name := none } { filename := none } = "chart.png" ∧
      guessed_content_type "chart.png" = "image/png" ∧
      mimetypes_guess_type "chart" = none ∧
      guessed_content_type "chart" = "application/octet-stream") := by
  have hnone : strTruthy none = false := rfl
  refine ⟨?_, ?_, ?_, ?_, ?_, by exact ⟨rfl, rfl, rfl, rfl⟩⟩
  · intro fid info data p hp hpne hbne
    have h1 : strTruthy (some p) = true := (strTruthy_iff _).mpr ⟨p, rfl, hpne⟩
    have h2 : strTruthy (some (os_basename p)) = true :=
      (strTruthy_iff _).mpr ⟨_, rfl, hbne⟩
    simp [resolve_download_filename, hp, h1, h2]
  · intro fid info data fn hpath hfn hne
    have h2 : strTruthy (some fn) = true := (strTruthy_iff _).mpr ⟨fn, rfl, hne⟩
    simp [resolve_download_filename, hpath, hfn, pyOr, h2, hnone]
  · intro fid info data nm hpath hfn hnm hne
    have h3 : strTruthy (some nm) = true := (strTruthy_iff _).mpr ⟨nm, rfl, hne⟩
    simp [resolve_download_filename, hpath, hfn, hnm, pyOr, h3, hnone]
  · intro fid info data dfn hpath hfn hnm hdfn hne
    have h4 : strTruthy (some dfn) = true :=
      (strTruthy_iff _).mpr ⟨dfn, rfl, hne⟩
    simp [resolve_download_filename, hpath, hfn, hnm, hdfn, pyOr, h4, hnone]
  · intro fid info data hpath hfn hnm hdfn
    simp [resolve_download_filename, hpath, hfn, hnm, hdfn, pyOr, hnone]

/-- C8 witness. -/
theorem file_relay_filename_resolution_witness :
    resolve_download_filename "cfile_abc"
        { path := none, filename := some "m.txt", name := none }
        { filename := none } = "m.txt" ∧
    resolve_download_filename "cfile_abc"
        { path := some "/sandbox/out/chart.png", filename := none,
          name := none } { filename := none } = "chart.png" :=
  ⟨file_relay_filename_resolution.2.1 "cfile_abc"
      { path := none, filename := some "m.txt", name := none }
      { filename := none } "m.txt" rfl rfl (by decide),
   file_relay_filename_resolution.2.2.2.2.2.1⟩
